import Mathlib

/-!
Verification of the EchoArb ingestion engine against its specification.

Shallow embedding of the Go sources:
  * `ingestor/internal/models/tick.go`   — `Tick`, `Tick.validate`
  * `ingestor/internal/connectors/kalshi.go`     — `kalshiProcessMessage`
  * `ingestor/internal/connectors/polymarket.go` — `polyProcessPriceUpdate`
  * `ingestor/internal/retry/retry.go`   — `retryRun`, `CircuitBreaker`
  * `ingestor/internal/redis/client.go`  — `publishTick`, `getLatestTicks`
  * `internal/auth` (request signer)     — `generateHeaders`

Go `float64` values are modelled as `ℚ` (the programs only move, compare,
add, and divide prices, and all constants are exactly representable),
`int64` as `ℤ`, and `time.Time` / `time.Duration` as `ℤ` / `ℚ`.
`sync.Map` caches are modelled as association lists; the metric and
channel side effects of a connector are modelled as an explicit list of
`Effect` values, in the order the Go code performs the calls.
-/

namespace EchoArb

/-- Truncation of a Go `float64` to `int64` (`int64(x)` rounds toward zero). -/
def f64toInt64 (x : ℚ) : ℤ :=
if x < 0 then -((-x).floor) else x.floor

/-! ### Tick model (`internal/models/tick.go`)

Field defaults are Go's zero values: a Go composite literal that omits a
field leaves it at the zero value, which the defaults reproduce. -/

/-- Canonical normalized market update (`models.Tick`). -/
structure Tick where
  source : String := ""
  contractID : String := ""
  price : ℚ := 0
  timestampSource : ℤ := 0
  timestampIngest : ℤ := 0
  yesBid : ℚ := 0
  yesAsk : ℚ := 0
  noBid : ℚ := 0
  noAsk : ℚ := 0
  lastPrice : ℚ := 0
  bidSize : ℚ := 0
  askSize : ℚ := 0
  tradeSize : ℚ := 0
  volume : ℤ := 0
  openInterest : ℤ := 0
  dollarVolume : ℤ := 0
  dollarOpenInt : ℤ := 0
  tradeSide : String := ""
  feeRateBps : ℚ := 0
  marketID : String := ""
  marketName : String := ""
  eventType : String := ""
deriving DecidableEq, Repr

/-- Validation errors of `Tick.Validate` (`tick.go`). -/
inductive TickError where
  | errMissingSource
  | errMissingContractID
  | errInvalidPrice
deriving DecidableEq, Repr

/-- `Tick.Validate` from `tick.go`: source and contract id non-empty,
price within `[0, 1]`. -/
def Tick.validate (t : Tick) : Option TickError :=
if t.source = "" then some .errMissingSource
else if t.contractID = "" then some .errMissingContractID
else if t.price < 0 ∨ 1 < t.price then some .errInvalidPrice
else none

/-! ### Per-connector caches (`sync.Map` keyed by contract id) -/

/-- `sync.Map.Load` on a last-price cache. -/
def cacheLoad (c : List (String × ℚ)) (k : String) : Option ℚ :=
(c.find? (fun e => e.1 == k)).map (fun e => e.2)

/-- `sync.Map.Store` on a last-price cache (replaces any previous binding). -/
def cacheStore (c : List (String × ℚ)) (k : String) (v : ℚ) : List (String × ℚ) :=
(k, v) :: c.filter (fun e => !(e.1 == k))

/-- Market-name cache lookup; `""` when absent (`kalshi.go` lines 234-237). -/
def nameLoad (names : List (String × String)) (k : String) : String :=
match names.find? (fun e => e.1 == k) with
| some e => e.2
| none => ""

/-! ### Observable connector effects

One `Effect` per metric / channel / publisher call the Go code performs,
in program order.  The Kalshi connector of
`ingestor/internal/connectors/kalshi.go` holds no metrics registry at all,
so its only effect is the channel send (`k.msgChan <- tick`). -/

/-- Observable side effects of connector message processing. -/
inductive Effect where
  | emitTick (t : Tick)
  | publishTick (t : Tick)
  | recordDuplicate (source : String)
  | recordMessage (source : String) (tsSource : ℤ)
  | recordProcessingTime (source : String)
  | recordPrice (source contract : String) (price : ℚ)
  | recordError (source kind : String)
deriving DecidableEq, Repr

/-- Number of channel sends in an effect trace. -/
def countEmits (l : List Effect) : ℕ :=
l.countP (fun e => match e with | .emitTick _ => true | _ => false)

/-- Number of publisher calls in an effect trace. -/
def countPublishes (l : List Effect) : ℕ :=
l.countP (fun e => match e with | .publishTick _ => true | _ => false)

/-- Number of duplicate-counter increments in an effect trace. -/
def countDuplicates (l : List Effect) : ℕ :=
l.countP (fun e => match e with | .recordDuplicate _ => true | _ => false)

/-- Prices carried by the channel sends of an effect trace. -/
def emittedPrices (l : List Effect) : List ℚ :=
l.filterMap (fun e => match e with | .emitTick t => some t.price | _ => none)

/-! ### Kalshi connector (`ingestor/internal/connectors/kalshi.go`)

The wire frame is decoded generically (`map[string]interface{}`); the
fields below are exactly the keys `processMessage` probes, with Go's
failed-type-assertion defaults (`0` / `""`) baked in.  `noBidWire` /
`noAskWire` stand for any no-side quotes a frame might carry: the code
never probes such keys, which the embedding makes checkable. -/

/-- Decoded `msg` payload of a Kalshi ticker frame. -/
structure KalshiMsg where
  marketTicker : String := ""
  yesBid : ℚ := 0
  yesAsk : ℚ := 0
  price : ℚ := 0
  volume : ℚ := 0
  openInterest : ℚ := 0
  dollarVolume : ℚ := 0
  dollarOpenInterest : ℚ := 0
  marketID : String := ""
  ts : ℚ := 0
  noBidWire : ℚ := 0
  noAskWire : ℚ := 0
deriving DecidableEq, Repr

/-- Decoded top-level Kalshi envelope: `type` discriminator plus the
nested `msg` object (`none` when the `msg` type assertion fails). -/
structure KalshiEnvelope where
  type : String := ""
  msg : Option KalshiMsg := none
deriving DecidableEq, Repr

/-- Price ladder of `kalshi.go` lines 211-223: both sides → cents
midpoint `/200`; else last trade `/100`; else lone bid `/100`; else lone
ask `/100`; else no price. -/
def kalshiDerivePrice (yesBid yesAsk lastPrice : ℚ) : Option ℚ :=
if 0 < yesBid ∧ 0 < yesAsk then some ((yesBid + yesAsk) / 200)
else if 0 < lastPrice then some (lastPrice / 100)
else if 0 < yesBid then some (yesBid / 100)
else if 0 < yesAsk then some (yesAsk / 100)
else none

/-- The `Tick` literal of `kalshi.go` lines 240-264. -/
def kalshiTick (names : List (String × String)) (nowMs : ℤ) (m : KalshiMsg) (price : ℚ) : Tick :=
{ source := "KALSHI"
  contractID := m.marketTicker
  price := price
  timestampSource := f64toInt64 (m.ts * 1000)
  timestampIngest := nowMs
  yesBid := m.yesBid / 100
  yesAsk := m.yesAsk / 100
  noBid := (100 - m.yesAsk) / 100
  noAsk := (100 - m.yesBid) / 100
  lastPrice := m.price / 100
  volume := f64toInt64 m.volume
  openInterest := f64toInt64 m.openInterest
  dollarVolume := f64toInt64 m.dollarVolume
  dollarOpenInt := f64toInt64 m.dollarOpenInterest
  marketID := m.marketID
  marketName := nameLoad names m.marketTicker
  eventType := "ticker" }

/-- Store-and-send tail of `processMessage` (`kalshi.go` lines 231-264). -/
def kalshiEmit (cache : List (String × ℚ)) (names : List (String × String))
    (nowMs : ℤ) (m : KalshiMsg) (price : ℚ) : List Effect × List (String × ℚ) :=
([Effect.emitTick (kalshiTick names nowMs m price)], cacheStore cache m.marketTicker price)

/-- `KalshiConnector.processMessage` (`kalshi.go` lines 170-265): keep only
`type == "ticker"` frames with a nested `msg` object and a non-empty
ticker, derive the canonical price, deduplicate against the last-price
cache (silently — this connector has no metrics registry), then send the
tick on the dispatch channel. -/
def kalshiProcessMessage (cache : List (String × ℚ)) (names : List (String × String))
    (nowMs : ℤ) (env : KalshiEnvelope) : List Effect × List (String × ℚ) :=
if env.type ≠ "ticker" then ([], cache)
else
  match env.msg with
  | none => ([], cache)
  | some m =>
    if m.marketTicker = "" then ([], cache)
    else
      match kalshiDerivePrice m.yesBid m.yesAsk m.price with
      | none => ([], cache)
      | some price =>
        match cacheLoad cache m.marketTicker with
        | some cached =>
            if cached = price then ([], cache)
            else kalshiEmit cache names nowMs m price
        | none => kalshiEmit cache names nowMs m price

/-- Kalshi read loop restricted to message processing: fold
`processMessage` over a list of decoded frames, collecting effects. -/
def kalshiRun (names : List (String × String)) (nowMs : ℤ) :
    List (String × ℚ) → List KalshiEnvelope → List Effect × List (String × ℚ)
  | cache, [] => ([], cache)
  | cache, e :: es =>
      let r := kalshiProcessMessage cache names nowMs e
      let rest := kalshiRun names nowMs r.2 es
      (r.1 ++ rest.1, rest.2)

/-! ### Polymarket connector (`ingestor/internal/connectors/polymarket.go`) -/

/-- Decoded Polymarket frame: the keys `processPriceUpdate` and
`processTradeUpdate` probe, with Go's type-assertion defaults. -/
structure PolyMsg where
  type : String := ""
  assetID : String := ""
  tokenID : String := ""
  price : ℚ := 0
  midPrice : ℚ := 0
  timestamp : ℚ := 0
deriving DecidableEq, Repr

/-- Asset-id resolution of `polymarket.go` lines 286-290: `asset_id`,
falling back to `token_id`. -/
def polyAssetID (m : PolyMsg) : String :=
if m.assetID = "" then m.tokenID else m.assetID

/-- Price resolution of `polymarket.go` lines 296-303: `price`, falling
back to `mid_price` when zero. -/
def polyPrice (m : PolyMsg) : ℚ :=
if m.price = 0 then m.midPrice else m.price

/-- Store-tick-publish-metrics tail of `processPriceUpdate`
(`polymarket.go` lines 319-341); the Redis call is modelled as the
`publishTick` effect (its failure branch is a backing-store outage, out
of scope here). -/
def polyEmit (cache : List (String × ℚ)) (nowMs : ℤ) (assetID : String)
    (price : ℚ) (timestamp : ℚ) : List Effect × List (String × ℚ) :=
  let t : Tick :=
    { source := "POLYMARKET", contractID := assetID, price := price
      timestampSource := f64toInt64 timestamp, timestampIngest := nowMs }
  ([Effect.publishTick t, Effect.recordMessage "POLYMARKET" t.timestampSource,
    Effect.recordProcessingTime "POLYMARKET",
    Effect.recordPrice "POLYMARKET" assetID price],
   cacheStore cache assetID price)

/-- `PolymarketConnector.processPriceUpdate` (`polymarket.go` lines
284-342): resolve asset id (error when absent), resolve price and
timestamp, deduplicate (incrementing the duplicate counter), then store,
publish, and record metrics. -/
def polyProcessPriceUpdate (cache : List (String × ℚ)) (nowMs : ℤ) (m : PolyMsg) :
    Except String (List Effect × List (String × ℚ)) :=
  let assetID := polyAssetID m
  if assetID = "" then .error "missing asset_id"
  else
    let price := polyPrice m
    let timestamp := if m.timestamp = 0 then (nowMs : ℚ) else m.timestamp
    match cacheLoad cache assetID with
    | some lastPrice =>
        if lastPrice = price then .ok ([Effect.recordDuplicate "POLYMARKET"], cache)
        else .ok (polyEmit cache nowMs assetID price timestamp)
    | none => .ok (polyEmit cache nowMs assetID price timestamp)

/-- `readLoop`'s handling of a price frame (`polymarket.go` lines
253-256): processing errors are logged and counted, the loop continues. -/
def polyHandleMessage (cache : List (String × ℚ)) (nowMs : ℤ) (m : PolyMsg) :
    List Effect × List (String × ℚ) :=
  match polyProcessPriceUpdate cache nowMs m with
  | .ok r => r
  | .error _ => ([Effect.recordError "POLYMARKET" "process_error"], cache)

/-- Polymarket read loop restricted to price frames. -/
def polyRun (nowMs : ℤ) :
    List (String × ℚ) → List PolyMsg → List Effect × List (String × ℚ)
  | cache, [] => ([], cache)
  | cache, m :: ms =>
      let r := polyHandleMessage cache nowMs m
      let rest := polyRun nowMs r.2 ms
      (r.1 ++ rest.1, rest.2)

/-! ### Retry controller (`ingestor/internal/retry/retry.go`)

Durations are modelled as `ℚ` (nanoseconds).  The jitter draw
`2*rand.Float64()-1 ∈ [-1, 1)` is modelled by an ambient sequence
`j : ℕ → ℚ` of values with `|j k| ≤ 1`, consumed one per backoff wait. -/

/-- `retry.Config`.  Note `RetryForever` below never consults
`maxRetries`, exactly as in the source, whose only uses of the field are
the struct declaration and its `// 0 = infinite` comment. -/
structure RetryConfig where
  initialInterval : ℚ
  maxInterval : ℚ
  maxRetries : ℕ
  multiplier : ℚ
  jitter : Bool
deriving DecidableEq, Repr

/-- Interval update after a failed attempt's wait (`retry.go` lines
41-50): cap `interval * multiplier` at `maxInterval`, then add jitter
`interval * 0.25 * (2*rand-1)`. -/
def retryStep (cfg : RetryConfig) (interval : ℚ) (j : ℚ) : ℚ :=
  let next := min (interval * cfg.multiplier) cfg.maxInterval
  if cfg.jitter then next + next * (1/4) * j else next

/-- Wait performed before the `n`-th retry (0-indexed) of an
uninterrupted run of failures that starts with interval
`cfg.initialInterval`. -/
def waitSeq (cfg : RetryConfig) (j : ℕ → ℚ) : ℕ → ℚ
  | 0 => cfg.initialInterval
  | n + 1 => retryStep cfg (waitSeq cfg j n) (j n)

/-- `RetryForever`'s loop (`retry.go` lines 20-56) as a wait trace: each
`Bool` is one `fn()` call's outcome (`true` = returned `nil`), with the
cancellation signal never firing.  Success resets the interval to
`initialInterval` and performs no wait; failure waits the current
interval, then updates it with `retryStep`.  The output lists the waits
performed.  The loop body contains no exit other than cancellation. -/
def retryRun (cfg : RetryConfig) (j : ℕ → ℚ) :
    List Bool → ℚ → ℕ → List ℚ
  | [], _, _ => []
  | true :: rs, _, k => retryRun cfg j rs cfg.initialInterval k
  | false :: rs, interval, k =>
      interval :: retryRun cfg j rs (retryStep cfg interval (j k)) (k + 1)

/-! ### Circuit breaker (`retry.go` lines 58-104)

`time.Time` is modelled as `ℤ` (nanoseconds); `time.Since(t) > timeout`
becomes `now - t > timeout`.  The state strings are those of the
source. -/

/-- `retry.CircuitBreaker`'s fields. -/
structure CircuitBreaker where
  threshold : ℕ
  timeout : ℤ
  failures : ℕ
  state : String
  lastFail : ℤ
deriving DecidableEq, Repr

/-- `NewCircuitBreaker`: closed, no failures, zero last-failure time. -/
def newCircuitBreaker (threshold : ℕ) (timeout : ℤ) : CircuitBreaker :=
  ⟨threshold, timeout, 0, "CLOSED", 0⟩

/-- `CircuitBreaker.Allow` (`retry.go` lines 72-84), returning the
result together with the possibly-updated breaker. -/
def CircuitBreaker.allow (cb : CircuitBreaker) (now : ℤ) : Bool × CircuitBreaker :=
  if cb.state = "OPEN" then
    if now - cb.lastFail > cb.timeout then (true, { cb with state := "HALF_OPEN" })
    else (false, cb)
  else (true, cb)

/-- `CircuitBreaker.RecordResult` (`retry.go` lines 86-104). -/
def CircuitBreaker.recordResult (cb : CircuitBreaker) (success : Bool) (now : ℤ) :
    CircuitBreaker :=
  if success then
    if cb.state = "HALF_OPEN" then { cb with state := "CLOSED", failures := 0 }
    else if cb.state = "CLOSED" then { cb with failures := 0 }
    else cb
  else
    let f := cb.failures + 1
    if cb.threshold ≤ f then { cb with failures := f, state := "OPEN", lastFail := now }
    else { cb with failures := f }

/-- Record a failure at each time of `ts`, in order. -/
def recordFailures (cb : CircuitBreaker) (ts : List ℤ) : CircuitBreaker :=
  ts.foldl (fun c t => c.recordResult false t) cb

/-! ### Tick serialization (`msgpack` tags of `tick.go`)

`msgpack.Marshal` of a `Tick` writes a map from the tag names to the
field values, skipping `omitempty` fields holding the zero value;
`msgpack.Unmarshal` reads each tagged key back, leaving absent fields at
the zero value.  The map level is modelled directly (the byte level adds
nothing to field-for-field round-tripping). -/

/-- A msgpack map value: the three scalar shapes `Tick` uses. -/
inductive MsgpackValue where
  | str (s : String)
  | f64 (x : ℚ)
  | i64 (n : ℤ)
deriving DecidableEq, Repr

/-- Serialized `Tick`: an ordered msgpack field map. -/
abbrev MsgpackMap := List (String × MsgpackValue)

/-- Encoded `omitempty` float field: absent at the zero value. -/
def optF (name : String) (x : ℚ) : MsgpackMap :=
  if x = 0 then [] else [(name, .f64 x)]

/-- Encoded `omitempty` integer field: absent at the zero value. -/
def optI (name : String) (n : ℤ) : MsgpackMap :=
  if n = 0 then [] else [(name, .i64 n)]

/-- Encoded `omitempty` string field: absent when empty. -/
def optS (name : String) (s : String) : MsgpackMap :=
  if s = "" then [] else [(name, .str s)]

/-- `msgpack.Marshal` of a `Tick`, per the `msgpack:"..."` tags of
`tick.go`: the five untagged-required fields always present, every other
field `omitempty`. -/
def encodeTick (t : Tick) : MsgpackMap :=
  [("source", .str t.source), ("contract_id", .str t.contractID),
   ("price", .f64 t.price), ("ts_source", .i64 t.timestampSource),
   ("ts_ingest", .i64 t.timestampIngest)]
  ++ optF "yes_bid" t.yesBid ++ optF "yes_ask" t.yesAsk
  ++ optF "no_bid" t.noBid ++ optF "no_ask" t.noAsk
  ++ optF "last_price" t.lastPrice
  ++ optF "bid_size" t.bidSize ++ optF "ask_size" t.askSize
  ++ optF "trade_size" t.tradeSize
  ++ optI "volume" t.volume ++ optI "open_interest" t.openInterest
  ++ optI "dollar_volume" t.dollarVolume
  ++ optI "dollar_open_interest" t.dollarOpenInt
  ++ optS "trade_side" t.tradeSide ++ optF "fee_rate_bps" t.feeRateBps
  ++ optS "market_id" t.marketID ++ optS "market_name" t.marketName
  ++ optS "event_type" t.eventType

/-- First value stored under key `k`. -/
def findVal (m : MsgpackMap) (k : String) : Option MsgpackValue :=
  (m.find? (fun e => e.1 == k)).map (fun e => e.2)

/-- Decoded string field (zero value when absent). -/
def getS (m : MsgpackMap) (k : String) : String :=
  match findVal m k with
  | some (.str s) => s
  | _ => ""

/-- Decoded float field (zero value when absent). -/
def getF (m : MsgpackMap) (k : String) : ℚ :=
  match findVal m k with
  | some (.f64 x) => x
  | _ => 0

/-- Decoded integer field (zero value when absent). -/
def getI (m : MsgpackMap) (k : String) : ℤ :=
  match findVal m k with
  | some (.i64 n) => n
  | _ => 0

/-- `msgpack.Unmarshal` into a `Tick`. -/
def decodeTick (m : MsgpackMap) : Tick :=
  { source := getS m "source", contractID := getS m "contract_id",
    price := getF m "price", timestampSource := getI m "ts_source",
    timestampIngest := getI m "ts_ingest",
    yesBid := getF m "yes_bid", yesAsk := getF m "yes_ask",
    noBid := getF m "no_bid", noAsk := getF m "no_ask",
    lastPrice := getF m "last_price",
    bidSize := getF m "bid_size", askSize := getF m "ask_size",
    tradeSize := getF m "trade_size",
    volume := getI m "volume", openInterest := getI m "open_interest",
    dollarVolume := getI m "dollar_volume",
    dollarOpenInt := getI m "dollar_open_interest",
    tradeSide := getS m "trade_side", feeRateBps := getF m "fee_rate_bps",
    marketID := getS m "market_id", marketName := getS m "market_name",
    eventType := getS m "event_type" }

/-! ### Publisher (`ingestor/internal/redis/client.go`) -/

/-- `StreamMaxLen` from `client.go`. -/
def streamMaxLen : ℕ := 10000

/-- Backing-store state: the capped stream and the pub/sub publishes
(channel, payload) in order. -/
structure RedisState where
  stream : List MsgpackMap := []
  published : List (String × MsgpackMap) := []
deriving DecidableEq, Repr

/-- Cap a stream at `streamMaxLen` entries, dropping the oldest (the
source uses approximate trimming; the exact cap stands in for it). -/
def capStream (s : List MsgpackMap) : List MsgpackMap :=
  s.drop (s.length - streamMaxLen)

/-- `Client.PublishTick` (`client.go` lines 61-97): validate, serialize,
then — as one pipeline — append to the capped stream and publish the same
payload to the channel `"tick:" ++ contract_id`.  A validation failure
returns the error before any write. -/
def publishTick (st : RedisState) (t : Tick) : Except TickError RedisState :=
  match t.validate with
  | some e => .error e
  | none =>
      let data := encodeTick t
      .ok { stream := capStream (st.stream ++ [data]),
            published := st.published ++ [("tick:" ++ t.contractID, data)] }

/-- `Client.GetLatestTicks` (`client.go` lines 100-125): the last `n`
stream entries in reverse-chronological order, deserialized. -/
def getLatestTicks (st : RedisState) (n : ℕ) : List Tick :=
  (st.stream.reverse.take n).map decodeTick

/-! ### Request signer (`internal/auth`, Kalshi)

The crypto primitives are parameters: `hash` is SHA-256 on the message
string, `signPSS digest saltLen` the RSA-PSS signature of a digest at a
salt length (`rsa.PSSSaltLengthEqualsHash` = the digest's own length).
Byte strings are `List ℕ`. -/

/-- Standard base64 alphabet (`encoding/base64.StdEncoding`). -/
def base64Alphabet : List Char :=
  "ABCDEFGHIJKLMNOPQRSTUVWXYZabcdefghijklmnopqrstuvwxyz0123456789+/".toList

/-- Digit of the standard base64 alphabet. -/
def base64Digit (n : ℕ) : Char := base64Alphabet.getD n '='

/-- `base64.StdEncoding.EncodeToString`. -/
def base64Encode : List ℕ → String
  | b1 :: b2 :: b3 :: rest =>
      String.mk [base64Digit (b1 / 4), base64Digit (b1 % 4 * 16 + b2 / 16),
                 base64Digit (b2 % 16 * 4 + b3 / 64), base64Digit (b3 % 64)]
        ++ base64Encode rest
  | [b1, b2] =>
      String.mk [base64Digit (b1 / 4), base64Digit (b1 % 4 * 16 + b2 / 16),
                 base64Digit (b2 % 16 * 4), '=']
  | [b1] =>
      String.mk [base64Digit (b1 / 4), base64Digit (b1 % 4 * 16), '=', '=']
  | [] => ""

/-- `http.Header.Set`: replace any previous value of the key. -/
def headerSet (h : List (String × String)) (k v : String) : List (String × String) :=
  h.filter (fun e => !(e.1 == k)) ++ [(k, v)]

/-- `KalshiAuth.GenerateHeaders`: sign `timestamp + method + path`
(timestamp = milliseconds in decimal) with SHA-256 then RSA-PSS at salt
length equal to the hash length, base64-encode, and set the three Kalshi
access headers. -/
def generateHeaders (hash : String → List ℕ) (signPSS : List ℕ → ℕ → List ℕ)
    (keyID : String) (nowMs : ℤ) (method path : String) : List (String × String) :=
  let timestamp := toString nowMs
  let msg := timestamp ++ method ++ path
  let hashed := hash msg
  let signature := signPSS hashed hashed.length
  let sigBase64 := base64Encode signature
  headerSet (headerSet (headerSet [] "KALSHI-ACCESS-KEY" keyID)
    "KALSHI-ACCESS-SIGNATURE" sigBase64) "KALSHI-ACCESS-TIMESTAMP" timestamp

/-! ## Helper lemmas -/

@[simp]
lemma findVal_nil (k : String) : findVal [] k = none := rfl

@[simp]
lemma findVal_cons (k' : String) (v : MsgpackValue) (m : MsgpackMap) (k : String) :
    findVal ((k', v) :: m) k = if k' == k then some v else findVal m k := by
  by_cases h : (k' == k) <;> simp [findVal, List.find?_cons, h]

@[simp]
lemma findVal_append (m₁ m₂ : MsgpackMap) (k : String) :
    findVal (m₁ ++ m₂) k = (findVal m₁ k).or (findVal m₂ k) := by
  induction m₁ with
  | nil => simp
  | cons a l ih =>
      obtain ⟨k', v⟩ := a
      by_cases h : (k' == k) <;> simp [h, ih]

@[simp]
lemma findVal_optF_self (k : String) (x : ℚ) :
    findVal (optF k x) k = if x = 0 then none else some (.f64 x) := by
  by_cases h : x = 0 <;> simp [optF, h]

@[simp]
lemma findVal_optI_self (k : String) (n : ℤ) :
    findVal (optI k n) k = if n = 0 then none else some (.i64 n) := by
  by_cases h : n = 0 <;> simp [optI, h]

@[simp]
lemma findVal_optS_self (k : String) (s : String) :
    findVal (optS k s) k = if s = "" then none else some (.str s) := by
  by_cases h : s = "" <;> simp [optS, h]

@[simp]
lemma findVal_optF_ne (k' k : String) (x : ℚ) (h : (k' == k) = false) :
    findVal (optF k' x) k = none := by
  by_cases hx : x = 0 <;> simp [optF, hx, h]

@[simp]
lemma findVal_optI_ne (k' k : String) (n : ℤ) (h : (k' == k) = false) :
    findVal (optI k' n) k = none := by
  by_cases hn : n = 0 <;> simp [optI, hn, h]

@[simp]
lemma findVal_optS_ne (k' k : String) (s : String) (h : (k' == k) = false) :
    findVal (optS k' s) k = none := by
  by_cases hs : s = "" <;> simp [optS, hs, h]

lemma getS_encode_opt (t : Tick) (k : String) (sel : Tick → String)
    (h : findVal (encodeTick t) k = if sel t = "" then none else some (.str (sel t))) :
    getS (encodeTick t) k = sel t := by
  by_cases hz : sel t = "" <;> simp [getS, h, hz]

lemma getF_encode_opt (t : Tick) (k : String) (sel : Tick → ℚ)
    (h : findVal (encodeTick t) k = if sel t = 0 then none else some (.f64 (sel t))) :
    getF (encodeTick t) k = sel t := by
  by_cases hz : sel t = 0 <;> simp [getF, h, hz]

lemma getI_encode_opt (t : Tick) (k : String) (sel : Tick → ℤ)
    (h : findVal (encodeTick t) k = if sel t = 0 then none else some (.i64 (sel t))) :
    getI (encodeTick t) k = sel t := by
  by_cases hz : sel t = 0 <;> simp [getI, h, hz]

/-! ## Claim theorems -/

/-- C8: serializing a `Tick` with the publisher's binary encoding and
deserializing it back (as `GetLatestTicks` does) yields a `Tick` equal
field for field to the original — for every `Tick`, in particular one
with all optional fields populated. -/
theorem tick_serialization_roundtrip (t : Tick) : decodeTick (encodeTick t) = t := by
  have h01 : getS (encodeTick t) "source" = t.source := by simp [getS, encodeTick]
  have h02 : getS (encodeTick t) "contract_id" = t.contractID := by simp [getS, encodeTick]
  have h03 : getF (encodeTick t) "price" = t.price := by simp [getF, encodeTick]
  have h04 : getI (encodeTick t) "ts_source" = t.timestampSource := by simp [getI, encodeTick]
  have h05 : getI (encodeTick t) "ts_ingest" = t.timestampIngest := by simp [getI, encodeTick]
  have h06 : getF (encodeTick t) "yes_bid" = t.yesBid :=
    getF_encode_opt t _ (fun t => t.yesBid) (by simp [encodeTick])
  have h07 : getF (encodeTick t) "yes_ask" = t.yesAsk :=
    getF_encode_opt t _ (fun t => t.yesAsk) (by simp [encodeTick])
  have h08 : getF (encodeTick t) "no_bid" = t.noBid :=
    getF_encode_opt t _ (fun t => t.noBid) (by simp [encodeTick])
  have h09 : getF (encodeTick t) "no_ask" = t.noAsk :=
    getF_encode_opt t _ (fun t => t.noAsk) (by simp [encodeTick])
  have h10 : getF (encodeTick t) "last_price" = t.lastPrice :=
    getF_encode_opt t _ (fun t => t.lastPrice) (by simp [encodeTick])
  have h11 : getF (encodeTick t) "bid_size" = t.bidSize :=
    getF_encode_opt t _ (fun t => t.bidSize) (by simp [encodeTick])
  have h12 : getF (encodeTick t) "ask_size" = t.askSize :=
    getF_encode_opt t _ (fun t => t.askSize) (by simp [encodeTick])
  have h13 : getF (encodeTick t) "trade_size" = t.tradeSize :=
    getF_encode_opt t _ (fun t => t.tradeSize) (by simp [encodeTick])
  have h14 : getI (encodeTick t) "volume" = t.volume :=
    getI_encode_opt t _ (fun t => t.volume) (by simp [encodeTick])
  have h15 : getI (encodeTick t) "open_interest" = t.openInterest :=
    getI_encode_opt t _ (fun t => t.openInterest) (by simp [encodeTick])
  have h16 : getI (encodeTick t) "dollar_volume" = t.dollarVolume :=
    getI_encode_opt t _ (fun t => t.dollarVolume) (by simp [encodeTick])
  have h17 : getI (encodeTick t) "dollar_open_interest" = t.dollarOpenInt :=
    getI_encode_opt t _ (fun t => t.dollarOpenInt) (by simp [encodeTick])
  have h18 : getS (encodeTick t) "trade_side" = t.tradeSide :=
    getS_encode_opt t _ (fun t => t.tradeSide) (by simp [encodeTick])
  have h19 : getF (encodeTick t) "fee_rate_bps" = t.feeRateBps :=
    getF_encode_opt t _ (fun t => t.feeRateBps) (by simp [encodeTick])
  have h20 : getS (encodeTick t) "market_id" = t.marketID :=
    getS_encode_opt t _ (fun t => t.marketID) (by simp [encodeTick])
  have h21 : getS (encodeTick t) "market_name" = t.marketName :=
    getS_encode_opt t _ (fun t => t.marketName) (by simp [encodeTick])
  have h22 : getS (encodeTick t) "event_type" = t.eventType :=
    getS_encode_opt t _ (fun t => t.eventType) (by simp [encodeTick])
  simp only [decodeTick, h01, h02, h03, h04, h05, h06, h07, h08, h09, h10, h11,
    h12, h13, h14, h15, h16, h17, h18, h19, h20, h21, h22]

/-- C9: `GenerateHeaders` signs exactly the concatenation
`timestamp ++ method ++ path` (timestamp in milliseconds, decimal) with
hash-then-RSA-PSS at salt length equal to the hash's length,
base64-encodes the signature, and returns exactly the three Kalshi
access headers: key id, signature, timestamp. -/
theorem generateHeaders_signing (hash : String → List ℕ) (signPSS : List ℕ → ℕ → List ℕ)
    (keyID : String) (nowMs : ℤ) (method path : String) :
    generateHeaders hash signPSS keyID nowMs method path =
      [("KALSHI-ACCESS-KEY", keyID),
       ("KALSHI-ACCESS-SIGNATURE",
          base64Encode (signPSS (hash (toString nowMs ++ method ++ path))
            (hash (toString nowMs ++ method ++ path)).length)),
       ("KALSHI-ACCESS-TIMESTAMP", toString nowMs)] := by
  simp [generateHeaders, headerSet]

/-- C5: `PublishTick` rejects a `Tick` with empty source, empty contract
id, or price outside `[0, 1]`, leaving the backing store untouched;
otherwise it performs exactly the capped stream append and the publish
to the topic `"tick:" ++ contract_id`. -/
theorem publishTick_validation (st : RedisState) (t : Tick) :
    (t.source = "" ∨ t.contractID = "" ∨ t.price < 0 ∨ 1 < t.price →
       ∃ e, publishTick st t = .error e) ∧
    (t.source ≠ "" → t.contractID ≠ "" → 0 ≤ t.price → t.price ≤ 1 →
       publishTick st t =
         .ok { stream := capStream (st.stream ++ [encodeTick t]),
               published := st.published ++ [("tick:" ++ t.contractID, encodeTick t)] }) := by
  constructor
  · intro h
    have hv : ∃ e, t.validate = some e := by
      unfold Tick.validate
      split_ifs with h1 h2 h3
      · exact ⟨_, rfl⟩
      · exact ⟨_, rfl⟩
      · exact ⟨_, rfl⟩
      · rcases h with h | h | h | h
        · exact absurd h h1
        · exact absurd h h2
        · exact absurd (Or.inl h) h3
        · exact absurd (Or.inr h) h3
    obtain ⟨e, he⟩ := hv
    exact ⟨e, by simp [publishTick, he]⟩
  · intro h1 h2 h3 h4
    have hv : t.validate = none := by
      unfold Tick.validate
      rw [if_neg h1, if_neg h2, if_neg (by simp [not_or, not_lt]; exact ⟨h3, h4⟩)]
    simp [publishTick, hv]

/-- C5 witness: a concrete valid tick is appended and published, and a
concrete invalid one (price 2) is rejected. -/
theorem publishTick_validation_witness :
    (("KALSHI" : String) ≠ "" ∧ ("MKT-1" : String) ≠ "" ∧
      (0 : ℚ) ≤ 1/2 ∧ (1/2 : ℚ) ≤ 1 ∧
      publishTick ⟨[], []⟩ { source := "KALSHI", contractID := "MKT-1", price := 1/2 } =
        .ok { stream :=
                capStream ([] ++ [encodeTick { source := "KALSHI", contractID := "MKT-1", price := 1/2 }]),
              published :=
                [] ++ [("tick:" ++ "MKT-1",
                         encodeTick { source := "KALSHI", contractID := "MKT-1", price := 1/2 })] }) ∧
    (∃ e, publishTick ⟨[], []⟩ { source := "KALSHI", contractID := "MKT-1", price := 2 } =
        .error e) := by
  constructor
  · exact ⟨by decide, by decide, by norm_num, by norm_num,
      (publishTick_validation ⟨[], []⟩ _).2 (by decide) (by decide) (by norm_num) (by norm_num)⟩
  · exact (publishTick_validation ⟨[], []⟩ _).1 (by norm_num)

lemma recordResult_false_below (cb : CircuitBreaker) (t : ℤ)
    (hlt : cb.failures + 1 < cb.threshold) :
    cb.recordResult false t = { cb with failures := cb.failures + 1 } := by
  simp only [CircuitBreaker.recordResult, Bool.false_eq_true, if_false]
  rw [if_neg (by omega)]

lemma recordResult_false_reaches (cb : CircuitBreaker) (t : ℤ)
    (hge : cb.threshold ≤ cb.failures + 1) :
    cb.recordResult false t =
      { cb with failures := cb.failures + 1, state := "OPEN", lastFail := t } := by
  simp only [CircuitBreaker.recordResult, Bool.false_eq_true, if_false]
  rw [if_pos hge]

lemma recordFailures_opens (ts : List ℤ) :
    ∀ (cb : CircuitBreaker) (t0 : ℤ), cb.state = "CLOSED" →
      cb.failures + ts.length = cb.threshold → ts.getLast? = some t0 →
      (recordFailures cb ts).state = "OPEN" ∧
      (recordFailures cb ts).lastFail = t0 ∧
      (recordFailures cb ts).timeout = cb.timeout := by
  induction ts with
  | nil => intro cb t0 _ _ hlast; simp at hlast
  | cons a l ih =>
      intro cb t0 hs hsum hlast
      cases l with
      | nil =>
          simp only [List.length_cons, List.length_nil] at hsum
          have hstep := recordResult_false_reaches cb a (by omega)
          simp only [List.getLast?_singleton, Option.some.injEq] at hlast
          subst hlast
          simp [recordFailures, hstep]
      | cons b l' =>
          simp only [List.length_cons] at hsum
          have hstep := recordResult_false_below cb a (by omega)
          rw [List.getLast?_cons_cons] at hlast
          have h2 := ih { cb with failures := cb.failures + 1 } t0 hs
            (by simp; omega) hlast
          simpa [recordFailures, hstep] using h2

/-- C4 (amended): after exactly `threshold` consecutive recorded
failures the breaker is `OPEN` with `lastFail` the time of the last
failure; `Allow()` returns `false` (and changes nothing) while
`now - lastFail ≤ timeout`; once strictly more than `timeout` has
elapsed, `Allow()` returns `true` and moves to `HALF_OPEN` — and, unlike
the claim's single-trial wording, every further `Allow()` call before a
result is recorded also returns `true`. -/
theorem circuitBreaker_threshold_amended (thr : ℕ) (tmo : ℤ) (ts : List ℤ) (tN : ℤ)
    (hthr : 1 ≤ thr) (hlen : ts.length = thr) (hlast : ts.getLast? = some tN)
    (now now2 : ℤ) :
    ((recordFailures (newCircuitBreaker thr tmo) ts).state = "OPEN") ∧
    ((recordFailures (newCircuitBreaker thr tmo) ts).lastFail = tN) ∧
    (now - tN ≤ tmo →
       (recordFailures (newCircuitBreaker thr tmo) ts).allow now =
         (false, recordFailures (newCircuitBreaker thr tmo) ts)) ∧
    (tmo < now - tN →
       ((recordFailures (newCircuitBreaker thr tmo) ts).allow now).1 = true ∧
       ((recordFailures (newCircuitBreaker thr tmo) ts).allow now).2.state = "HALF_OPEN" ∧
       (((recordFailures (newCircuitBreaker thr tmo) ts).allow now).2.allow now2).1 = true) := by
  obtain ⟨h1, h2, h3⟩ := recordFailures_opens ts (newCircuitBreaker thr tmo) tN rfl
    (by simpa [newCircuitBreaker] using hlen) hlast
  have hto : (recordFailures (newCircuitBreaker thr tmo) ts).timeout = tmo := h3
  refine ⟨h1, h2, ?_, ?_⟩
  · intro hle
    simp [CircuitBreaker.allow, h1, h2, hto, not_lt.mpr hle]
  · intro hgt
    simp [CircuitBreaker.allow, h1, h2, hto, hgt]

/-- C4 witness: with threshold 2 and timeout 5, two failures at times 0
and 1 open the breaker; at `now = 3` the breaker denies, at `now = 7` it
allows and a second `Allow()` before any recorded result allows again. -/
theorem circuitBreaker_threshold_amended_witness :
    (1 ≤ 2 ∧ ([0, 1] : List ℤ).length = 2 ∧ ([0, 1] : List ℤ).getLast? = some 1) ∧
    (recordFailures (newCircuitBreaker 2 5) [0, 1]).state = "OPEN" ∧
    ((recordFailures (newCircuitBreaker 2 5) [0, 1]).allow 3 =
       (false, recordFailures (newCircuitBreaker 2 5) [0, 1])) ∧
    ((recordFailures (newCircuitBreaker 2 5) [0, 1]).allow 7).1 = true := by
  have h := circuitBreaker_threshold_amended 2 5 [0, 1] 1 (by norm_num) (by decide)
    (by decide) 7 7
  have h' := circuitBreaker_threshold_amended 2 5 [0, 1] 1 (by norm_num) (by decide)
    (by decide) 3 3
  exact ⟨⟨by norm_num, by decide, by decide⟩, h.1,
    h'.2.2.1 (by norm_num), (h.2.2.2 (by norm_num)).1⟩

/-- C4 counterexample: threshold 1, timeout 5, one failure at time 0.
At `now = 6` the timeout has elapsed and `Allow()` grants the
`HALF_OPEN` trial — but a second `Allow()` call, before any result is
recorded, returns `true` again, where the claim requires `false`. -/
theorem circuitBreaker_single_trial_counterexample :
    (((newCircuitBreaker 1 5).recordResult false 0).allow 6).1 = true ∧
    ((((newCircuitBreaker 1 5).recordResult false 0).allow 6).2.allow 6).1 = true := by
  decide

/-- C7: `RetryForever`'s behavior is independent of `maxRetries` — the
loop body never consults the field — and under `n` consecutive failures
(no cancellation) it performs a wait-and-retry after every one of the
`n` failed attempts, for every `n`, instead of stopping after the
configured maximum.  The claim's `MaxRetries = K > 0` bound is the
documented intent (`// 0 = infinite`), which the code does not
implement. -/
theorem retryRun_ignores_maxRetries :
    (∀ (cfg : RetryConfig) (m : ℕ) (j : ℕ → ℚ) (rs : List Bool) (v : ℚ) (k : ℕ),
        retryRun { cfg with maxRetries := m } j rs v k = retryRun cfg j rs v k) ∧
    (∀ (cfg : RetryConfig) (j : ℕ → ℚ) (n : ℕ) (v : ℚ) (k : ℕ),
        (retryRun cfg j (List.replicate n false) v k).length = n) := by
  constructor
  · intro cfg m j rs
    induction rs with
    | nil => intro v k; rfl
    | cons r rs ih =>
        intro v k
        cases r
        · simpa [retryRun, retryStep] using ih (retryStep cfg v (j k)) (k + 1)
        · simpa [retryRun] using ih cfg.initialInterval k
  · intro cfg j n
    induction n with
    | zero => intro v k; rfl
    | succ n ih =>
        intro v k
        simpa [List.replicate_succ, retryRun] using ih (retryStep cfg v (j k)) (k + 1)

lemma waitSeq_nonneg (cfg : RetryConfig) (j : ℕ → ℚ)
    (hI : 0 ≤ cfg.initialInterval) (hIX : cfg.initialInterval ≤ cfg.maxInterval)
    (hM : 1 ≤ cfg.multiplier) (hj : ∀ n, |j n| ≤ 1) :
    ∀ n, 0 ≤ waitSeq cfg j n := by
  have hX : (0 : ℚ) ≤ cfg.maxInterval := le_trans hI hIX
  intro n
  induction n with
  | zero => exact hI
  | succ n ih =>
      have hnext : (0 : ℚ) ≤ min (waitSeq cfg j n * cfg.multiplier) cfg.maxInterval :=
        le_min (mul_nonneg ih (by linarith)) hX
      have hjn := abs_le.mp (hj n)
      simp only [waitSeq, retryStep]
      split
      · nlinarith [hjn.1, hjn.2, hnext]
      · exact hnext

lemma waitSeq_no_jitter (cfg : RetryConfig) (j : ℕ → ℚ)
    (hjit : cfg.jitter = false) (hIX : cfg.initialInterval ≤ cfg.maxInterval)
    (hM : 1 ≤ cfg.multiplier) (hX : 0 ≤ cfg.maxInterval) :
    ∀ n, waitSeq cfg j n = min (cfg.initialInterval * cfg.multiplier ^ n) cfg.maxInterval := by
  have hM0 : (0 : ℚ) ≤ cfg.multiplier := by linarith
  intro n
  induction n with
  | zero => simp [waitSeq, min_eq_left hIX]
  | succ n ih =>
      have hXM : cfg.maxInterval ≤ cfg.maxInterval * cfg.multiplier :=
        le_mul_of_one_le_right hX hM
      calc waitSeq cfg j (n + 1)
          = min (waitSeq cfg j n * cfg.multiplier) cfg.maxInterval := by
            simp [waitSeq, retryStep, hjit]
        _ = min (min (cfg.initialInterval * cfg.multiplier ^ n) cfg.maxInterval
                  * cfg.multiplier) cfg.maxInterval := by rw [ih]
        _ = min (min (cfg.initialInterval * cfg.multiplier ^ n * cfg.multiplier)
                  (cfg.maxInterval * cfg.multiplier)) cfg.maxInterval := by
            rw [min_mul_of_nonneg _ _ hM0]
        _ = min (cfg.initialInterval * cfg.multiplier ^ n * cfg.multiplier)
                (min (cfg.maxInterval * cfg.multiplier) cfg.maxInterval) := by
            rw [min_assoc]
        _ = min (cfg.initialInterval * cfg.multiplier ^ (n + 1)) cfg.maxInterval := by
            rw [min_eq_right hXM, pow_succ, mul_assoc]

lemma retryRun_replicate_false (cfg : RetryConfig) (j : ℕ → ℚ) :
    ∀ (n k : ℕ), retryRun cfg j (List.replicate n false) (waitSeq cfg j k) k =
      (List.range n).map (fun i => waitSeq cfg j (k + i)) := by
  intro n
  induction n with
  | zero => intro k; rfl
  | succ n ih =>
      intro k
      have hfun : (fun i => waitSeq cfg j (k + Nat.succ i)) =
          (fun i => waitSeq cfg j (k + 1 + i)) := by
        funext i; congr 1; omega
      calc retryRun cfg j (List.replicate (n + 1) false) (waitSeq cfg j k) k
          = waitSeq cfg j k ::
              retryRun cfg j (List.replicate n false) (waitSeq cfg j (k + 1)) (k + 1) := by
            simp [List.replicate_succ, retryRun, waitSeq]
        _ = waitSeq cfg j k ::
              (List.range n).map (fun i => waitSeq cfg j (k + 1 + i)) := by rw [ih]
        _ = (List.range (n + 1)).map (fun i => waitSeq cfg j (k + i)) := by
            rw [List.range_succ_eq_map, List.map_cons, List.map_map]
            simp [Function.comp_def, hfun]

/-- C3 (amended): for the retry controller with non-negative initial
interval `I ≤ X` and multiplier `M ≥ 1`, the waits of a failure run are
`waitSeq`; with jitter off the `n`-th wait (0-indexed) equals
`min(I*M^n, X)` exactly; with jitter on each wait after the first lies
within ±25 % of `min(previous wait * M, X)` — the jittered previous
wait, not the nominal `min(I*M^n, X)` of the claim, because jitter
compounds; a success resets the next wait to `I`. -/
theorem retry_backoff_amended (cfg : RetryConfig) (j : ℕ → ℚ)
    (hI : 0 ≤ cfg.initialInterval) (hIX : cfg.initialInterval ≤ cfg.maxInterval)
    (hM : 1 ≤ cfg.multiplier) (hj : ∀ n, |j n| ≤ 1) :
    (∀ n, retryRun cfg j (List.replicate n false) cfg.initialInterval 0 =
       (List.range n).map (waitSeq cfg j)) ∧
    (cfg.jitter = false →
       ∀ n, waitSeq cfg j n = min (cfg.initialInterval * cfg.multiplier ^ n) cfg.maxInterval) ∧
    (cfg.jitter = true →
       ∀ n, |waitSeq cfg j (n + 1) - min (waitSeq cfg j n * cfg.multiplier) cfg.maxInterval|
         ≤ min (waitSeq cfg j n * cfg.multiplier) cfg.maxInterval / 4) ∧
    (∀ (rs : List Bool) (v : ℚ) (k : ℕ),
       retryRun cfg j (true :: rs) v k = retryRun cfg j rs cfg.initialInterval k) := by
  refine ⟨?_, ?_, ?_, fun rs v k => rfl⟩
  · intro n
    have h := retryRun_replicate_false cfg j n 0
    simpa [waitSeq] using h
  · intro hjit
    exact waitSeq_no_jitter cfg j hjit hIX hM (le_trans hI hIX)
  · intro hjit n
    have hnn := waitSeq_nonneg cfg j hI hIX hM hj n
    have hnext : (0 : ℚ) ≤ min (waitSeq cfg j n * cfg.multiplier) cfg.maxInterval :=
      le_min (mul_nonneg hnn (by linarith)) (le_trans hI hIX)
    have hjn := abs_le.mp (hj n)
    have hdiff : waitSeq cfg j (n + 1)
        - min (waitSeq cfg j n * cfg.multiplier) cfg.maxInterval
        = min (waitSeq cfg j n * cfg.multiplier) cfg.maxInterval * (1/4) * j n := by
      simp [waitSeq, retryStep, hjit]
    rw [hdiff, abs_mul, abs_mul, abs_of_nonneg hnext]
    have h14 : |(1 : ℚ)/4| = 1/4 := by norm_num
    rw [h14]
    have hq : min (waitSeq cfg j n * cfg.multiplier) cfg.maxInterval * (1/4) * |j n|
        ≤ min (waitSeq cfg j n * cfg.multiplier) cfg.maxInterval * (1/4) * 1 :=
      mul_le_mul_of_nonneg_left (hj n) (by linarith)
    linarith [hq]

/-- C3 witness: `I = 1, M = 2, X = 10`, jitter off — the waits before
the 2nd, 3rd and 4th attempts are exactly 1, 2 and 4 (= `min(I*M^n, X)`),
matching the spec's scenario. -/
theorem retry_backoff_amended_witness :
    ((0 : ℚ) ≤ 1 ∧ (1 : ℚ) ≤ 10 ∧ (1 : ℚ) ≤ 2 ∧ ∀ n : ℕ, |(0 : ℚ)| ≤ 1) ∧
    (∀ n, waitSeq ⟨1, 10, 0, 2, false⟩ (fun _ => 0) n = min ((1 : ℚ) * 2 ^ n) 10) ∧
    waitSeq ⟨1, 10, 0, 2, false⟩ (fun _ => 0) 0 = 1 ∧
    waitSeq ⟨1, 10, 0, 2, false⟩ (fun _ => 0) 1 = 2 ∧
    waitSeq ⟨1, 10, 0, 2, false⟩ (fun _ => 0) 2 = 4 := by
  have h := retry_backoff_amended ⟨1, 10, 0, 2, false⟩ (fun _ => 0)
    (by norm_num) (by norm_num) (by norm_num) (fun n => by norm_num)
  refine ⟨⟨by norm_num, by norm_num, by norm_num, fun n => by norm_num⟩,
    h.2.1 rfl, ?_, ?_, ?_⟩ <;> norm_num [waitSeq, retryStep]

/-- C3 counterexample: `I = 16, M = 2, X = 1600`, jitter on, with jitter
draws `2*rand-1 = 1/2` (within the code's range).  The 3rd wait
(0-indexed `n = 2`) is 81, but the claim's band around
`min(I*M^2, X) = 64` is `[48, 80]`: jitter compounds across steps, so
the ±25 % bound on `min(I*M^n, X)` fails. -/
theorem retry_jitter_counterexample :
    waitSeq ⟨16, 1600, 0, 2, true⟩ (fun _ => 1/2) 2 = 81 ∧
    ¬ (|(81 : ℚ) - min ((16 : ℚ) * 2 ^ 2) 1600| ≤ min ((16 : ℚ) * 2 ^ 2) 1600 / 4) ∧
    |(1 : ℚ)/2| ≤ 1 := by
  refine ⟨?_, by norm_num, by norm_num [abs_le]⟩
  norm_num [waitSeq, retryStep]

@[simp]
lemma cacheLoad_nil (k : String) : cacheLoad [] k = none := rfl

@[simp]
lemma cacheLoad_store_self (c : List (String × ℚ)) (k : String) (v : ℚ) :
    cacheLoad (cacheStore c k v) k = some v := by
  simp [cacheLoad, cacheStore, List.find?_cons]

lemma countP_replicate {α : Type} (p : α → Bool) (a : α) (n : ℕ) :
    List.countP p (List.replicate n a) = if p a then n else 0 := by
  induction n with
  | zero => simp
  | succ n ih =>
      by_cases h : p a <;> simp [List.replicate_succ, List.countP_cons, ih, h]

lemma kalshiProcessMessage_dup (cache : List (String × ℚ)) (names : List (String × String))
    (nowMs : ℤ) (m : KalshiMsg) (p : ℚ)
    (hd : kalshiDerivePrice m.yesBid m.yesAsk m.price = some p)
    (ht : m.marketTicker ≠ "")
    (hc : cacheLoad cache m.marketTicker = some p) :
    kalshiProcessMessage cache names nowMs ⟨"ticker", some m⟩ = ([], cache) := by
  simp [kalshiProcessMessage, ht, hd, hc]

lemma kalshiProcessMessage_emits (cache : List (String × ℚ)) (names : List (String × String))
    (nowMs : ℤ) (m : KalshiMsg) (p : ℚ)
    (hd : kalshiDerivePrice m.yesBid m.yesAsk m.price = some p)
    (ht : m.marketTicker ≠ "")
    (hc : cacheLoad cache m.marketTicker ≠ some p) :
    kalshiProcessMessage cache names nowMs ⟨"ticker", some m⟩ =
      ([Effect.emitTick (kalshiTick names nowMs m p)],
       cacheStore cache m.marketTicker p) := by
  cases hload : cacheLoad cache m.marketTicker with
  | none => simp [kalshiProcessMessage, ht, hd, hload, kalshiEmit]
  | some cached =>
      have hne : cached ≠ p := fun h => hc (by rw [hload, h])
      simp [kalshiProcessMessage, ht, hd, hload, hne, kalshiEmit]

lemma kalshiProcessMessage_emit_shape (cache : List (String × ℚ))
    (names : List (String × String)) (nowMs : ℤ) (env : KalshiEnvelope) (t : Tick)
    (hmem : Effect.emitTick t ∈ (kalshiProcessMessage cache names nowMs env).1) :
    ∃ m p, env.msg = some m ∧
      kalshiDerivePrice m.yesBid m.yesAsk m.price = some p ∧
      t = kalshiTick names nowMs m p := by
  obtain ⟨tp, msg⟩ := env
  by_cases htp : tp = "ticker"
  · subst htp
    cases msg with
    | none => simp [kalshiProcessMessage] at hmem
    | some m =>
        by_cases hmt : m.marketTicker = ""
        · simp [kalshiProcessMessage, hmt] at hmem
        · cases hd : kalshiDerivePrice m.yesBid m.yesAsk m.price with
          | none => simp [kalshiProcessMessage, hmt, hd] at hmem
          | some p =>
              by_cases hc : cacheLoad cache m.marketTicker = some p
              · rw [kalshiProcessMessage_dup cache names nowMs m p hd hmt hc] at hmem
                simp at hmem
              · rw [kalshiProcessMessage_emits cache names nowMs m p hd hmt hc] at hmem
                simp at hmem
                exact ⟨m, p, rfl, hd, hmem⟩
  · simp [kalshiProcessMessage, htp] at hmem

lemma kalshiRun_dup_frames (names : List (String × String)) (nowMs : ℤ)
    (m : KalshiMsg) (p : ℚ)
    (hd : kalshiDerivePrice m.yesBid m.yesAsk m.price = some p)
    (ht : m.marketTicker ≠ "") :
    ∀ (n : ℕ) (cache : List (String × ℚ)),
      cacheLoad cache m.marketTicker = some p →
      kalshiRun names nowMs cache (List.replicate n ⟨"ticker", some m⟩) = ([], cache) := by
  intro n
  induction n with
  | zero => intro cache _; rfl
  | succ n ih =>
      intro cache hc
      rw [List.replicate_succ]
      simp only [kalshiRun, kalshiProcessMessage_dup cache names nowMs m p hd ht hc]
      simpa using ih cache hc

lemma polyProcessPriceUpdate_dup (cache : List (String × ℚ)) (nowMs : ℤ) (m : PolyMsg)
    (ha : polyAssetID m ≠ "")
    (hc : cacheLoad cache (polyAssetID m) = some (polyPrice m)) :
    polyProcessPriceUpdate cache nowMs m =
      .ok ([Effect.recordDuplicate "POLYMARKET"], cache) := by
  simp [polyProcessPriceUpdate, ha, hc]

lemma polyProcessPriceUpdate_emits (cache : List (String × ℚ)) (nowMs : ℤ) (m : PolyMsg)
    (ha : polyAssetID m ≠ "")
    (hc : cacheLoad cache (polyAssetID m) ≠ some (polyPrice m)) :
    polyProcessPriceUpdate cache nowMs m =
      .ok (polyEmit cache nowMs (polyAssetID m) (polyPrice m)
            (if m.timestamp = 0 then (nowMs : ℚ) else m.timestamp)) := by
  cases hload : cacheLoad cache (polyAssetID m) with
  | none => simp [polyProcessPriceUpdate, ha, hload]
  | some q =>
      have hne : q ≠ polyPrice m := fun h => hc (by rw [hload, h])
      simp [polyProcessPriceUpdate, ha, hload, hne]

lemma polyRun_dup_frames (nowMs : ℤ) (m : PolyMsg) (ha : polyAssetID m ≠ "") :
    ∀ (n : ℕ) (cache : List (String × ℚ)),
      cacheLoad cache (polyAssetID m) = some (polyPrice m) →
      polyRun nowMs cache (List.replicate n m) =
        (List.replicate n (Effect.recordDuplicate "POLYMARKET"), cache) := by
  intro n
  induction n with
  | zero => intro cache _; rfl
  | succ n ih =>
      intro cache hc
      rw [List.replicate_succ]
      simp only [polyRun, polyHandleMessage,
        polyProcessPriceUpdate_dup cache nowMs m ha hc, ih cache hc]
      simp [List.replicate_succ]

lemma kalshiDerivePrice_bounds (yB yA lp p : ℚ)
    (hB0 : 0 ≤ yB) (hB1 : yB ≤ 100) (hA0 : 0 ≤ yA) (hA1 : yA ≤ 100)
    (hL0 : 0 ≤ lp) (hL1 : lp ≤ 100)
    (h : kalshiDerivePrice yB yA lp = some p) : 0 ≤ p ∧ p ≤ 1 := by
  unfold kalshiDerivePrice at h
  split_ifs at h with h1 h2 h3 h4 <;>
    simp only [Option.some.injEq] at h <;> subst h <;> constructor <;> linarith

lemma polyEmit_publish_price (cache : List (String × ℚ)) (nowMs : ℤ)
    (assetID : String) (price timestamp : ℚ) (t : Tick)
    (hmem : Effect.publishTick t ∈ (polyEmit cache nowMs assetID price timestamp).1) :
    t.price = price := by
  simp [polyEmit] at hmem
  rw [hmem]

/-- C1 (amended): the Kalshi price ladder derives, in this priority
order: both sides present (positive) → cents midpoint `(bid+ask)/200`;
else a last-trade price → `price/100`; else a lone bid → `bid/100`; else
a lone ask → `ask/100`; else the frame is dropped — `processMessage`
returns no effect and leaves the cache untouched.  (The claim placed the
lone-side cases ahead of the last-trade price; the code checks the
last-trade price first.) -/
theorem kalshi_price_priority_amended :
    (∀ yB yA lp : ℚ,
      (0 < yB → 0 < yA → kalshiDerivePrice yB yA lp = some ((yB + yA) / 200)) ∧
      (¬ (0 < yB ∧ 0 < yA) → 0 < lp → kalshiDerivePrice yB yA lp = some (lp / 100)) ∧
      (¬ (0 < yB ∧ 0 < yA) → ¬ 0 < lp → 0 < yB →
         kalshiDerivePrice yB yA lp = some (yB / 100)) ∧
      (¬ (0 < yB ∧ 0 < yA) → ¬ 0 < lp → ¬ 0 < yB → 0 < yA →
         kalshiDerivePrice yB yA lp = some (yA / 100)) ∧
      (¬ 0 < yB → ¬ 0 < yA → ¬ 0 < lp → kalshiDerivePrice yB yA lp = none)) ∧
    (∀ (cache : List (String × ℚ)) (names : List (String × String)) (nowMs : ℤ)
       (tp : String) (m : KalshiMsg),
       kalshiDerivePrice m.yesBid m.yesAsk m.price = none →
       kalshiProcessMessage cache names nowMs ⟨tp, some m⟩ = ([], cache)) := by
  constructor
  · intro yB yA lp
    refine ⟨?_, ?_, ?_, ?_, ?_⟩
    · intro h1 h2; simp [kalshiDerivePrice, h1, h2]
    · intro h1 h2; simp [kalshiDerivePrice, h1, h2]
    · intro h1 h2 h3
      have hA : ¬ 0 < yA := fun h => h1 ⟨h3, h⟩
      simp [kalshiDerivePrice, hA, h2, h3]
    · intro h1 h2 h3 h4; simp [kalshiDerivePrice, h1, h2, h3, h4]
    · intro h1 h2 h3
      have : ¬ (0 < yB ∧ 0 < yA) := fun h => h1 h.1
      simp [kalshiDerivePrice, this, h1, h2, h3]
  · intro cache names nowMs tp m hd
    by_cases htp : tp = "ticker"
    · subst htp
      by_cases hmt : m.marketTicker = ""
      · simp [kalshiProcessMessage, hmt]
      · simp [kalshiProcessMessage, hmt, hd]
    · simp [kalshiProcessMessage, htp]

/-- C1 witness: the spec's own scenario `yes_bid = 40¢, yes_ask = 42¢`
derives `0.41`, and a frame with no usable field is dropped with no
effects and an unchanged cache. -/
theorem kalshi_price_priority_amended_witness :
    ((0 : ℚ) < 40 ∧ (0 : ℚ) < 42 ∧ kalshiDerivePrice 40 42 0 = some (41/100)) ∧
    (kalshiDerivePrice 0 0 0 = none ∧
      kalshiProcessMessage [] [] 0 ⟨"ticker", some {}⟩ = ([], [])) := by
  have h1 := (kalshi_price_priority_amended.1 40 42 0).1 (by norm_num) (by norm_num)
  have h2 := kalshi_price_priority_amended.2 [] [] 0 "ticker" {} (by decide)
  norm_num at h1
  exact ⟨⟨by norm_num, by norm_num, h1⟩, ⟨by decide, h2⟩⟩

/-- C1 counterexample: with only a bid present (`yes_bid = 40`,
`yes_ask = 0`) and a last-trade price `50`, the code derives `0.50`
(last trade takes priority), not the claimed lone-side value `0.40`. -/
theorem kalshi_price_priority_counterexample :
    kalshiDerivePrice 40 0 50 = some (1/2) ∧ (1/2 : ℚ) ≠ 40 / 100 := by
  constructor
  · norm_num [kalshiDerivePrice]
  · norm_num

/-- C6 (amended): whenever the wire fields lie in their documented
ranges — Kalshi cents in `[0, 100]`, Polymarket prices in `[0, 1]` —
every tick a connector emits carries a price in `[0, 1]`; in particular
a both-sides midpoint `(bid+ask)/200` lies in `[0, 1]`.  (Without the
range hypotheses the code emits out-of-range prices unchanged, see the
counterexample.) -/
theorem tick_price_unit_interval_amended :
    (∀ (cache : List (String × ℚ)) (names : List (String × String)) (nowMs : ℤ)
       (env : KalshiEnvelope) (m : KalshiMsg) (t : Tick),
       env.msg = some m →
       0 ≤ m.yesBid → m.yesBid ≤ 100 → 0 ≤ m.yesAsk → m.yesAsk ≤ 100 →
       0 ≤ m.price → m.price ≤ 100 →
       Effect.emitTick t ∈ (kalshiProcessMessage cache names nowMs env).1 →
       0 ≤ t.price ∧ t.price ≤ 1) ∧
    (∀ (cache : List (String × ℚ)) (nowMs : ℤ) (m : PolyMsg)
       (effs : List Effect) (c' : List (String × ℚ)) (t : Tick),
       0 ≤ m.price → m.price ≤ 1 → 0 ≤ m.midPrice → m.midPrice ≤ 1 →
       polyProcessPriceUpdate cache nowMs m = .ok (effs, c') →
       Effect.publishTick t ∈ effs →
       0 ≤ t.price ∧ t.price ≤ 1) := by
  constructor
  · intro cache names nowMs env m t hmsg hB0 hB1 hA0 hA1 hL0 hL1 hmem
    obtain ⟨m', p, hmsg', hd, hT⟩ :=
      kalshiProcessMessage_emit_shape cache names nowMs env t hmem
    rw [hmsg] at hmsg'
    obtain rfl := Option.some.inj hmsg'
    have hb := kalshiDerivePrice_bounds m.yesBid m.yesAsk m.price p
      hB0 hB1 hA0 hA1 hL0 hL1 hd
    rw [hT]
    exact hb
  · intro cache nowMs m effs c' t hp0 hp1 hm0 hm1 hok hmem
    by_cases ha : polyAssetID m = ""
    · simp [polyProcessPriceUpdate, ha] at hok
    · have hprice : t.price = polyPrice m := by
        by_cases hc : cacheLoad cache (polyAssetID m) = some (polyPrice m)
        · rw [polyProcessPriceUpdate_dup cache nowMs m ha hc] at hok
          injection hok with h
          rw [Prod.ext_iff] at h
          simp only at h
          rw [← h.1] at hmem
          simp at hmem
        · rw [polyProcessPriceUpdate_emits cache nowMs m ha hc] at hok
          injection hok with h
          rw [Prod.ext_iff] at h
          simp only at h
          rw [← h.1] at hmem
          exact polyEmit_publish_price _ _ _ _ _ _ hmem
      rw [hprice]
      unfold polyPrice
      split_ifs <;> constructor <;> linarith

/-- C6 witness: the spec scenario (`yes_bid = 40`, `yes_ask = 42`, a
fresh cache) emits a tick whose price `0.41` lies in `[0, 1]`. -/
theorem tick_price_unit_interval_witness :
    ((0 : ℚ) ≤ 40 ∧ (40 : ℚ) ≤ 100 ∧ (0 : ℚ) ≤ 42 ∧ (42 : ℚ) ≤ 100) ∧
    (0 ≤ (kalshiTick [] 0 { marketTicker := "T", yesBid := 40, yesAsk := 42 } (41/100)).price ∧
     (kalshiTick [] 0 { marketTicker := "T", yesBid := 40, yesAsk := 42 } (41/100)).price ≤ 1) := by
  refine ⟨⟨by norm_num, by norm_num, by norm_num, by norm_num⟩, ?_⟩
  have hd : kalshiDerivePrice (40 : ℚ) 42 0 = some (41/100) := by
    norm_num [kalshiDerivePrice]
  have hstep := kalshiProcessMessage_emits [] [] 0
    { marketTicker := "T", yesBid := 40, yesAsk := 42 } (41/100) hd (by decide) (by simp)
  exact tick_price_unit_interval_amended.1 [] [] 0
    ⟨"ticker", some { marketTicker := "T", yesBid := 40, yesAsk := 42 }⟩
    { marketTicker := "T", yesBid := 40, yesAsk := 42 }
    (kalshiTick [] 0 { marketTicker := "T", yesBid := 40, yesAsk := 42 } (41/100))
    rfl (by norm_num) (by norm_num) (by norm_num) (by norm_num) (by norm_num) (by norm_num)
    (by rw [hstep]; exact List.mem_singleton.mpr rfl)

/-- C6 counterexample: a Kalshi frame with out-of-range cents
`yes_bid = yes_ask = 150` is emitted unchanged with price `1.5 > 1` —
the connector never clamps or validates, so the invariant as claimed
(for every emitted tick, unconditionally) fails. -/
theorem tick_price_unit_interval_counterexample :
    emittedPrices (kalshiRun [] 0 []
      [⟨"ticker", some { marketTicker := "T", yesBid := 150, yesAsk := 150 }⟩]).1 =
      [3/2] ∧ ¬ ((3/2 : ℚ) ≤ 1) := by
  have hd : kalshiDerivePrice (150 : ℚ) 150 0 = some (3/2) := by
    norm_num [kalshiDerivePrice]
  have hstep := kalshiProcessMessage_emits [] [] 0
    { marketTicker := "T", yesBid := 150, yesAsk := 150 } (3/2) hd (by decide) (by simp)
  constructor
  · simp [kalshiRun, hstep, emittedPrices, kalshiTick]
  · norm_num

/-- C2 (amended): per connector and contract id, a frame whose derived
price equals the cached last price is suppressed — the Polymarket
connector additionally increments its duplicate counter, while the
Kalshi connector of `kalshi.go` holds no metrics registry and records
nothing; otherwise the cache is updated and the tick is emitted.
Consequently, `N ≥ 1` consecutive frames resolving to one price yield
exactly 1 emission, with `N-1` duplicate events recorded by Polymarket
and 0 by Kalshi. -/
theorem dedup_amended :
    (∀ (cache : List (String × ℚ)) (names : List (String × String)) (nowMs : ℤ)
       (m : KalshiMsg) (p : ℚ),
       kalshiDerivePrice m.yesBid m.yesAsk m.price = some p → m.marketTicker ≠ "" →
       (cacheLoad cache m.marketTicker = some p →
          kalshiProcessMessage cache names nowMs ⟨"ticker", some m⟩ = ([], cache)) ∧
       (cacheLoad cache m.marketTicker ≠ some p →
          kalshiProcessMessage cache names nowMs ⟨"ticker", some m⟩ =
            ([Effect.emitTick (kalshiTick names nowMs m p)],
             cacheStore cache m.marketTicker p))) ∧
    (∀ (cache : List (String × ℚ)) (nowMs : ℤ) (m : PolyMsg),
       polyAssetID m ≠ "" →
       (cacheLoad cache (polyAssetID m) = some (polyPrice m) →
          polyProcessPriceUpdate cache nowMs m =
            .ok ([Effect.recordDuplicate "POLYMARKET"], cache)) ∧
       (cacheLoad cache (polyAssetID m) ≠ some (polyPrice m) →
          polyProcessPriceUpdate cache nowMs m =
            .ok (polyEmit cache nowMs (polyAssetID m) (polyPrice m)
                  (if m.timestamp = 0 then (nowMs : ℚ) else m.timestamp)))) ∧
    (∀ (names : List (String × String)) (nowMs : ℤ) (m : KalshiMsg) (p : ℚ) (N : ℕ),
       kalshiDerivePrice m.yesBid m.yesAsk m.price = some p → m.marketTicker ≠ "" →
       1 ≤ N →
       countEmits (kalshiRun names nowMs []
         (List.replicate N ⟨"ticker", some m⟩)).1 = 1 ∧
       countDuplicates (kalshiRun names nowMs []
         (List.replicate N ⟨"ticker", some m⟩)).1 = 0) ∧
    (∀ (nowMs : ℤ) (m : PolyMsg) (N : ℕ),
       polyAssetID m ≠ "" → 1 ≤ N →
       countPublishes (polyRun nowMs [] (List.replicate N m)).1 = 1 ∧
       countDuplicates (polyRun nowMs [] (List.replicate N m)).1 = N - 1) := by
  refine ⟨?_, ?_, ?_, ?_⟩
  · intro cache names nowMs m p hd ht
    exact ⟨kalshiProcessMessage_dup cache names nowMs m p hd ht,
      kalshiProcessMessage_emits cache names nowMs m p hd ht⟩
  · intro cache nowMs m ha
    exact ⟨polyProcessPriceUpdate_dup cache nowMs m ha,
      polyProcessPriceUpdate_emits cache nowMs m ha⟩
  · intro names nowMs m p N hd ht hN
    obtain ⟨K, rfl⟩ : ∃ K, N = K + 1 := ⟨N - 1, by omega⟩
    rw [List.replicate_succ]
    have hfirst := kalshiProcessMessage_emits [] names nowMs m p hd ht (by simp)
    have hrest := kalshiRun_dup_frames names nowMs m p hd ht K
      (cacheStore [] m.marketTicker p) (by simp)
    simp only [kalshiRun, hfirst, hrest]
    simp [countEmits, countDuplicates]
  · intro nowMs m N ha hN
    obtain ⟨K, rfl⟩ : ∃ K, N = K + 1 := ⟨N - 1, by omega⟩
    rw [List.replicate_succ]
    have hfirst := polyProcessPriceUpdate_emits [] nowMs m ha (by simp)
    have hrest := polyRun_dup_frames nowMs m ha K
      (cacheStore [] (polyAssetID m) (polyPrice m)) (by simp)
    simp only [polyRun, polyHandleMessage, hfirst, polyEmit, hrest]
    simp [countPublishes, countDuplicates, countP_replicate, List.countP_cons]

/-- C2 witness: in the Polymarket connector, one fresh frame followed by
an identical one publishes exactly once and records exactly one
duplicate event (`N = 2`). -/
theorem dedup_amended_witness :
    (("a1" : String) ≠ "" ∧ 1 ≤ 2) ∧
    countPublishes (polyRun 0 []
      (List.replicate 2 { type := "price_update", assetID := "a1", price := 1/2 })).1 = 1 ∧
    countDuplicates (polyRun 0 []
      (List.replicate 2 { type := "price_update", assetID := "a1", price := 1/2 })).1 = 2 - 1 := by
  have ha : polyAssetID { type := "price_update", assetID := "a1", price := 1/2 } ≠ "" := by
    simp [polyAssetID]
  have h := dedup_amended.2.2.2 0
    { type := "price_update", assetID := "a1", price := 1/2 } 2 ha (by norm_num)
  exact ⟨⟨by decide, by norm_num⟩, h.1, h.2⟩

/-- C2 counterexample: two identical Kalshi ticker frames — the second
is suppressed as a duplicate, but zero duplicate events are recorded
(`kalshi.go`'s dedup branch is a bare `return`), not the claimed
`N - 1 = 1`. -/
theorem dedup_counter_counterexample :
    countEmits (kalshiRun [] 0 []
      (List.replicate 2 ⟨"ticker", some { marketTicker := "T", yesBid := 40, yesAsk := 42 }⟩)).1
      = 1 ∧
    countDuplicates (kalshiRun [] 0 []
      (List.replicate 2 ⟨"ticker", some { marketTicker := "T", yesBid := 40, yesAsk := 42 }⟩)).1
      = 0 ∧
    (0 : ℕ) ≠ 2 - 1 := by
  have hd : kalshiDerivePrice (40 : ℚ) 42 0 = some (41/100) := by
    norm_num [kalshiDerivePrice]
  have hfirst : kalshiProcessMessage [] [] 0
      ⟨"ticker", some { marketTicker := "T", yesBid := 40, yesAsk := 42 }⟩ =
      ([Effect.emitTick
          (kalshiTick [] 0 { marketTicker := "T", yesBid := 40, yesAsk := 42 } (41/100))],
       cacheStore [] "T" (41/100)) := by
    simpa using kalshiProcessMessage_emits [] [] 0
      { marketTicker := "T", yesBid := 40, yesAsk := 42 } (41/100) hd (by decide) (by simp)
  have hsecond : kalshiProcessMessage (cacheStore [] "T" (41/100)) [] 0
      ⟨"ticker", some { marketTicker := "T", yesBid := 40, yesAsk := 42 }⟩ =
      ([], cacheStore [] "T" (41/100)) := by
    apply kalshiProcessMessage_dup _ _ _ _ _ hd (by decide)
    simp
  have hrun : kalshiRun [] 0 []
      (List.replicate 2 ⟨"ticker", some { marketTicker := "T", yesBid := 40, yesAsk := 42 }⟩) =
      ([Effect.emitTick
          (kalshiTick [] 0 { marketTicker := "T", yesBid := 40, yesAsk := 42 } (41/100))],
       cacheStore [] "T" (41/100)) := by
    show kalshiRun [] 0 []
      (⟨"ticker", some { marketTicker := "T", yesBid := 40, yesAsk := 42 }⟩ ::
       ⟨"ticker", some { marketTicker := "T", yesBid := 40, yesAsk := 42 }⟩ :: []) = _
    simp [kalshiRun, hfirst, hsecond]
  refine ⟨?_, ?_, by norm_num⟩ <;> rw [hrun] <;> simp [countEmits, countDuplicates]

/-- C10: every tick the Kalshi connector emits carries derived no-side
quotes — `NoBid = (100 - yes_ask)/100` and `NoAsk = (100 - yes_bid)/100`
— and the result of `processMessage` does not depend on any no-side
values the wire frame may carry. -/
theorem kalshi_no_side_derived (cache : List (String × ℚ))
    (names : List (String × String)) (nowMs : ℤ) (env : KalshiEnvelope)
    (m : KalshiMsg) (t : Tick) (hmsg : env.msg = some m)
    (hmem : Effect.emitTick t ∈ (kalshiProcessMessage cache names nowMs env).1) :
    t.noBid = (100 - m.yesAsk) / 100 ∧ t.noAsk = (100 - m.yesBid) / 100 ∧
    (∀ nb na : ℚ,
       kalshiProcessMessage cache names nowMs
         ⟨env.type, some { m with noBidWire := nb, noAskWire := na }⟩ =
       kalshiProcessMessage cache names nowMs env) := by
  obtain ⟨m', p, hmsg', hd, hT⟩ :=
    kalshiProcessMessage_emit_shape cache names nowMs env t hmem
  rw [hmsg] at hmsg'
  obtain rfl := Option.some.inj hmsg'
  obtain ⟨tp, msg⟩ := env
  simp only at hmsg
  subst hmsg
  refine ⟨by rw [hT]; rfl, by rw [hT]; rfl, ?_⟩
  intro nb na
  simp [kalshiProcessMessage, kalshiEmit, kalshiTick]

/-- C10 witness: the spec scenario `yes_bid = 40, yes_ask = 42` emits a
tick with `NoBid = 0.58` and `NoAsk = 0.60`, and wire no-side values are
ignored. -/
theorem kalshi_no_side_derived_witness :
    (kalshiTick [] 0 { marketTicker := "T", yesBid := 40, yesAsk := 42 } (41/100)).noBid
      = (100 - 42) / 100 ∧
    (kalshiTick [] 0 { marketTicker := "T", yesBid := 40, yesAsk := 42 } (41/100)).noAsk
      = (100 - 40) / 100 ∧
    (∀ nb na : ℚ,
       kalshiProcessMessage [] [] 0
         ⟨"ticker", some { marketTicker := "T", yesBid := 40, yesAsk := 42,
                           noBidWire := nb, noAskWire := na }⟩ =
       kalshiProcessMessage [] [] 0
         ⟨"ticker", some { marketTicker := "T", yesBid := 40, yesAsk := 42 }⟩) := by
  have hd : kalshiDerivePrice (40 : ℚ) 42 0 = some (41/100) := by
    norm_num [kalshiDerivePrice]
  have hstep := kalshiProcessMessage_emits [] [] 0
    { marketTicker := "T", yesBid := 40, yesAsk := 42 } (41/100) hd (by decide) (by simp)
  exact kalshi_no_side_derived [] [] 0
    ⟨"ticker", some { marketTicker := "T", yesBid := 40, yesAsk := 42 }⟩
    { marketTicker := "T", yesBid := 40, yesAsk := 42 }
    (kalshiTick [] 0 { marketTicker := "T", yesBid := 40, yesAsk := 42 } (41/100))
    rfl (by rw [hstep]; exact List.mem_singleton.mpr rfl)

end EchoArb
